import Mathlib

/- Shallow embedding of the WebCDU backend core: the CDU block extractor and
   fixed-column record decoder (backend/cdu_parser.py), the graph projector
   (backend/cdu_json_converter.py), and the text generator
   (backend/exporter/cdu_generator.py). Lines are modelled as lists of
   characters; Python dictionaries as structures; operations that can raise
   in Python return `Option`/`Except`. -/

/-- A physical text line, as its list of characters (a Python `str`). -/
abbrev Line := List Char

/-- The whitespace characters removed by Python `str.strip()`. -/
def pySpace (c : Char) : Bool :=
  c = ' ' || c = '\t' || c = '\n' || c = '\x0b' || c = '\x0c' || c = '\r'

/-- Python `s.strip()`: drop whitespace from both ends. -/
def stripL (l : Line) : Line :=
  ((l.dropWhile pySpace).reverse.dropWhile pySpace).reverse

/-- Python `s.upper()` (inputs are ASCII). -/
def upperL (l : Line) : Line := l.map Char.toUpper

/-- Python `s.upper()` on a string (ASCII). -/
def upperStr (s : String) : String := String.mk (s.data.map Char.toUpper)

/-- Python `s.lower()` on a string (ASCII). -/
def lowerStr (s : String) : String := String.mk (s.data.map Char.toLower)

/-- Python slice `s[a:b]` (0-indexed, end-exclusive, clamped; never raises). -/
def sliceL (l : Line) (a b : Nat) : Line := (l.drop a).take (b - a)

/-- Python `s.startswith(t)`. -/
def isPrefixL : Line → Line → Bool
  | [], _ => true
  | _ :: _, [] => false
  | a :: as, b :: bs => a = b && isPrefixL as bs

/-- Python `t in s` substring test. -/
def isInfixL (n : Line) : Line → Bool
  | [] => n.isEmpty
  | c :: rest => isPrefixL n (c :: rest) || isInfixL n rest

/-- Python `s.ljust(w)`: right-pad with spaces to width `w`. -/
def ljustL (l : Line) (w : Nat) : Line := l ++ List.replicate (w - l.length) ' '

/-- Python `s.rstrip('\n')`: drop trailing newline characters. -/
def rstripNl (l : Line) : Line := (l.reverse.dropWhile (· = '\n')).reverse

/-- Shorthand for writing concrete lines. -/
def ln (s : String) : Line := s.data

/-- Decimal value of a list of digit characters. -/
def decVal (l : Line) : Nat := l.foldl (fun a c => a * 10 + (c.toNat - 48)) 0

/-- Python `int(s)`: optional sign then decimal digits, surrounding whitespace
    allowed; anything else raises `ValueError`, modelled as `none`. -/
def parseInt? (l : Line) : Option Int :=
  match stripL l with
  | '-' :: ds => if !ds.isEmpty && ds.all Char.isDigit then some (-(decVal ds : Int)) else none
  | '+' :: ds => if !ds.isEmpty && ds.all Char.isDigit then some ((decVal ds : Int)) else none
  | ds => if !ds.isEmpty && ds.all Char.isDigit then some ((decVal ds : Int)) else none

/- ------------------------------------------------------------------ -/
/- Block extractor: `extract_dcdu_blocks` (cdu_parser.py).             -/
/- The file handle loop is modelled as a fold over the list of lines.  -/
/- ------------------------------------------------------------------ -/

/-- The loop state of `extract_dcdu_blocks`: sections captured so far,
    the in-progress section, and the `in_dcdu_block` flag. -/
structure ExtractState where
  all : List (List Line)
  current : List Line
  inBlock : Bool
deriving DecidableEq, Repr

/-- The start-of-section test `re.match(r'^\s*\d+\s+[A-Z0-9_]+', s)`:
    optional whitespace, at least one digit, at least one whitespace
    character, then at least one character in `[A-Z0-9_]` (a prefix match;
    the character classes are disjoint where it matters, so maximal munch
    is exact). -/
def matchStartRe (l : Line) : Bool :=
  let l1 := l.dropWhile pySpace
  let digits := l1.takeWhile Char.isDigit
  let l2 := l1.dropWhile Char.isDigit
  let sp := l2.takeWhile pySpace
  let l3 := l2.dropWhile pySpace
  let word := l3.takeWhile (fun c => (('A' ≤ c && c ≤ 'Z') || c.isDigit || c = '_'))
  !digits.isEmpty && !sp.isEmpty && !word.isEmpty

/-- One iteration of the `extract_dcdu_blocks` loop body on one line. -/
def extractStep (st : ExtractState) (line : Line) : ExtractState :=
  let stripped := stripL line
  if stripped.isEmpty || stripped.head? = some '(' then st
  else if isInfixL (ln "DCDU") (upperL stripped) && !st.inBlock then
    if matchStartRe stripped then { st with current := [line], inBlock := true } else st
  else if st.inBlock then
    let cur := st.current ++ [line]
    if isInfixL (ln "FIMCDU") (upperL stripped) then
      { all := st.all ++ [cur], current := [], inBlock := false }
    else { st with current := cur }
  else st

/-- `extract_dcdu_blocks`, over an in-memory list of lines (the source reads
    them from a file; the I/O error paths return `[]` and are outside the
    line-processing loop modelled here). -/
def extract_dcdu_blocks (lines : List Line) : List (List Line) :=
  (lines.foldl extractStep { all := [], current := [], inBlock := false }).all

/- ------------------------------------------------------------------ -/
/- Record decoder: `parse_bloco_line` and `add_continuation_line`.     -/
/- ------------------------------------------------------------------ -/

/-- The per-block record built by `parse_bloco_line` (a dict in the source). -/
structure BlocoRec where
  nb : Line
  i : Char
  tipo : Line
  o : Char
  stip : Line
  s : List Char
  vent : List Line
  vsai : Line
  p1 : List Line
  p2 : List Line
  p3 : List Line
  p4 : List Line
  vmin : Line
  vmax : Line
deriving DecidableEq, Repr

/-- `parse_bloco_line` with Python character indexing made explicit:
    `padded_line[4]`, `[11]` and `[18]` raise `IndexError` when out of
    range, modelled as `none`; slices never raise in Python. -/
def parse_bloco_line? (line : Line) : Option BlocoRec :=
  let p := ljustL (rstripNl line) 71
  match p.get? 4, p.get? 11, p.get? 18 with
  | some ci, some co, some cs =>
    some { nb := stripL (sliceL p 0 4), i := ci, tipo := stripL (sliceL p 5 11),
           o := co, stip := stripL (sliceL p 12 18), s := [cs],
           vent := [stripL (sliceL p 19 25)], vsai := stripL (sliceL p 26 32),
           p1 := [stripL (sliceL p 33 39)], p2 := [stripL (sliceL p 39 45)],
           p3 := [stripL (sliceL p 45 51)], p4 := [stripL (sliceL p 51 57)],
           vmin := stripL (sliceL p 58 64), vmax := stripL (sliceL p 65 71) }
  | _, _, _ => none

/-- Total form of `parse_bloco_line`: the padding to 71 columns keeps every
    index in range, so this agrees with `parse_bloco_line?` on every line
    (proved below). -/
def parse_bloco_line (line : Line) : BlocoRec :=
  let p := ljustL (rstripNl line) 71
  { nb := stripL (sliceL p 0 4), i := p.getD 4 ' ', tipo := stripL (sliceL p 5 11),
    o := p.getD 11 ' ', stip := stripL (sliceL p 12 18), s := [p.getD 18 ' '],
    vent := [stripL (sliceL p 19 25)], vsai := stripL (sliceL p 26 32),
    p1 := [stripL (sliceL p 33 39)], p2 := [stripL (sliceL p 39 45)],
    p3 := [stripL (sliceL p 45 51)], p4 := [stripL (sliceL p 51 57)],
    vmin := stripL (sliceL p 58 64), vmax := stripL (sliceL p 65 71) }

/-- `add_continuation_line`: merge one continuation line into a block record.
    The state flag is always appended; input variable and parameter columns
    are appended only when non-empty; a non-empty output variable overwrites. -/
def add_continuation_line (b : BlocoRec) (line : Line) : BlocoRec :=
  let p := ljustL (rstripNl line) 71
  { b with
    s := b.s ++ [p.getD 18 ' '],
    vent := if (stripL (sliceL p 19 25)).isEmpty then b.vent
            else b.vent ++ [stripL (sliceL p 19 25)],
    vsai := if (stripL (sliceL p 26 32)).isEmpty then b.vsai
            else stripL (sliceL p 26 32),
    p1 := if (stripL (sliceL p 33 39)).isEmpty then b.p1
          else b.p1 ++ [stripL (sliceL p 33 39)],
    p2 := if (stripL (sliceL p 39 45)).isEmpty then b.p2
          else b.p2 ++ [stripL (sliceL p 39 45)],
    p3 := if (stripL (sliceL p 45 51)).isEmpty then b.p3
          else b.p3 ++ [stripL (sliceL p 45 51)],
    p4 := if (stripL (sliceL p 51 57)).isEmpty then b.p4
          else b.p4 ++ [stripL (sliceL p 51 57)] }

/- ------------------------------------------------------------------ -/
/- Block assembler: `parse_dcdu_block` (cdu_parser.py).                -/
/- ------------------------------------------------------------------ -/

/-- The block types whose records may span multiple lines
    (`multi_line_types` in the source). -/
def multi_line_types : List Line :=
  [ln "ACUM", ln "COMPAR", ln "DIVSAO", ln "FUNCAO", ln "INTRES", ln "LOGIC",
   ln "MAX", ln "MIN", ln "MULTPL", ln "POL(S)", ln "S/HOLD", ln "SELET2",
   ln "SOMA", ln "T/HOLD"]

/-- The lookahead test of the continuation loop: the next line's type column
    (5:11) is blank and the line is not a comment. -/
def isContinuationLine (next : Line) : Bool :=
  (stripL (sliceL next 5 11)).isEmpty && !(isPrefixL (ln "(") (stripL next))

/-- The inner `while` loop of `parse_dcdu_block`: keep merging following
    lines into the block while they pass `isContinuationLine`; return the
    finished block and the unconsumed remainder. -/
def consumeContinuations (b : BlocoRec) : List Line → BlocoRec × List Line
  | [] => (b, [])
  | next :: rest =>
    if isContinuationLine next then consumeContinuations (add_continuation_line b next) rest
    else (b, next :: rest)

/-- The structured result of `parse_dcdu_block` (a dict in the source). -/
structure DcduData where
  name : Line
  ncdu : Int
  params : List Line
  defvals : List Line
  imports : List BlocoRec
  exports : List BlocoRec
  entradas : List BlocoRec
  blocos : List BlocoRec
deriving DecidableEq, Repr

/-- Final classification of a finished block by its upper-cased type. -/
def classifyBloco (d : DcduData) (tipoU : Line) (b : BlocoRec) : DcduData :=
  if tipoU = ln "IMPORT" then { d with imports := d.imports ++ [b] }
  else if tipoU = ln "EXPORT" then { d with exports := d.exports ++ [b] }
  else if tipoU = ln "ENTRAD" then { d with entradas := d.entradas ++ [b] }
  else { d with blocos := d.blocos ++ [b] }

/-- The loop state of the `parse_dcdu_block` line loop in continuation form:
    the data collected so far, plus a multi-line block that is still
    accepting continuation lines (the inner `while` loop in flight). -/
structure AsmState where
  d : DcduData
  pending : Option BlocoRec
deriving DecidableEq, Repr

/-- The body of the `parse_dcdu_block` loop for a line that starts a fresh
    record: skip `FIMCDU` and comment lines, collect `DEFPAR`/`DEFVAL`
    declarations, otherwise decode a block; a multi-line type becomes
    pending (its continuation lines follow), any other type is classified
    at once. -/
def asmProcess (d : DcduData) (line : Line) : AsmState :=
  if isInfixL (ln "FIMCDU") (upperL line) || isPrefixL (ln "(") (stripL line) then
    { d := d, pending := none }
  else if isPrefixL (ln "DEFPAR") (upperL line) then
    { d := { d with params := d.params ++ [stripL line] }, pending := none }
  else if isPrefixL (ln "DEFVAL") (upperL line) then
    { d := { d with defvals := d.defvals ++ [stripL line] }, pending := none }
  else
    let b := parse_bloco_line line
    if multi_line_types.contains (upperL b.tipo) then
      { d := d, pending := some b }
    else
      { d := classifyBloco d (upperL b.tipo) b, pending := none }

/-- One iteration of the `parse_dcdu_block` loop: while a multi-line block
    is pending, a line passing the continuation test is merged into it (the
    inner `while`); the first line that fails the test closes the pending
    block, which is classified, and the line is processed fresh. Agrees
    with `consumeContinuations` (proved below). -/
def asmStep (st : AsmState) (line : Line) : AsmState :=
  match st.pending with
  | some b =>
    if isContinuationLine line then { d := st.d, pending := some (add_continuation_line b line) }
    else asmProcess (classifyBloco st.d (upperL b.tipo) b) line
  | none => asmProcess st.d line

/-- End of the line list: a still-pending block is classified. -/
def asmFlush (st : AsmState) : DcduData :=
  match st.pending with
  | none => st.d
  | some b => classifyBloco st.d (upperL b.tipo) b

/-- `parse_dcdu_block`: parse the header line, then run the line loop over
    the body. An empty line list returns `{}` in the source and a
    non-numeric header id raises `ValueError`; both are modelled as `none`. -/
def parse_dcdu_block? (block_lines : List Line) : Option DcduData :=
  match block_lines with
  | [] => none
  | header :: rest =>
    match parseInt? (sliceL header 0 6) with
    | none => none
    | some n =>
      some (asmFlush (rest.foldl asmStep
        { d := { name := (stripL (header.drop 7)).filter Char.isAlphanum,
                 ncdu := n, params := [], defvals := [],
                 imports := [], exports := [], entradas := [], blocos := [] },
          pending := none }))

/- ------------------------------------------------------------------ -/
/- Graph projector: `dcdu_to_reactflow` (cdu_json_converter.py).       -/
/- Its input comes from the full reader `ler_dcdu_completo`, which is  -/
/- imported by the converter but not part of the sources, so the input -/
/- data model is taken from the spec.                                  -/
/- ------------------------------------------------------------------ -/

/-- Modelled from the spec: the `Bloco` record produced by the missing
    reader `ler_dcdu_completo` — §3 "Block": `number: integer` (a unique
    4-digit identifier), block type, subtype, ordered input variables,
    single output variable, per-line parameter sequences `p1..p4`, and the
    `vmin`/`vmax` bounds. Only the fields the projector reads matter here. -/
structure Bloco where
  nb : Nat
  tipo : String
  stip : String
  vent : List String
  vsai : String
  p1 : List String
  p2 : List String
  p3 : List String
  p4 : List String
  vmin : String
  vmax : String
deriving DecidableEq, Repr

/-- Modelled from the spec: the semantic aggregate `DCDU` (§3), restricted
    to the categorized block collections the graph projector reads. -/
structure DCDU where
  entrads : List Bloco
  imports : List Bloco
  blocos : List Bloco
  exports : List Bloco
deriving DecidableEq, Repr

/-- Decimal digit characters of `n` (Python `str(n)` for a natural number). -/
def decRepr (n : Nat) : List Char :=
  if _h : n < 10 then [Nat.digitChar n]
  else decRepr (n / 10) ++ [Nat.digitChar (n % 10)]
decreasing_by exact Nat.div_lt_self (by omega) (by omega)

/-- Python `str(n)` for a natural number. -/
def natToStr (n : Nat) : String := String.mk (decRepr n)

/-- Python format `f"{n:04d}"` for a natural number: the decimal form,
    zero-padded on the left to at least 4 characters. -/
def format04 (n : Nat) : String :=
  String.mk (List.replicate (4 - (decRepr n).length) '0' ++ decRepr n)

/-- Python `sep.join(xs)`. -/
def joinSep (sep : String) : List String → String
  | [] => ""
  | [x] => x
  | x :: y :: xs => x ++ sep ++ joinSep sep (y :: xs)

/-- Python `s.title()` (ASCII): a letter is upper-cased when the previous
    character is not a letter, lower-cased otherwise. -/
def titleChars : Bool → List Char → List Char
  | _, [] => []
  | prevAlpha, c :: cs =>
    (if c.isAlpha then (if prevAlpha then c.toLower else c.toUpper) else c)
      :: titleChars c.isAlpha cs

/-- Python `s.title()` on a string. -/
def titleStr (s : String) : String := String.mk (titleChars false s.data)

/-- `all_blocks` in `dcdu_to_reactflow`: entries, imports, interior blocks
    and exports, in that order. -/
def allBlocks (d : DCDU) : List Bloco := d.entrads ++ d.imports ++ d.blocos ++ d.exports

/-- `node_id = f"{b.nb:04d}"`. -/
def nodeIdOf (b : Bloco) : String := format04 b.nb

/-- The `var_to_node` dictionary lookup: `dict.get(v)` after the build loop
    returns the node id written by the last block with non-empty `vsai = v`. -/
def varToNode (bs : List Bloco) (v : String) : Option String :=
  bs.foldl (fun acc b => if b.vsai = v ∧ b.vsai ≠ "" then some (nodeIdOf b) else acc) none

/-- The node type: the lower-cased block type, except that `funcao` blocks
    use the lower-cased subtype, with `x**2` remapped to `x2`. -/
def nodeTypeOf (b : Bloco) : String :=
  let t := lowerStr b.tipo
  if t = "funcao" then
    let t2 := lowerStr b.stip
    if t2 = "x**2" then "x2" else t2
  else t

/-- The node `data` mapping. Keys that the source inserts only
    conditionally are modelled as `Option` fields (`none` = key absent). -/
structure NodeData where
  label : String
  id : String
  Vout : String
  Vin : Option String
  P1 : Option String
  P2 : Option String
  Vmin : Option String
  Vmax : Option String
  stip : Option String
deriving DecidableEq, Repr

/-- A graph node. The position is always `{x: 0, y: 0}`. -/
structure NodeR where
  id : String
  type : String
  posx : Int
  posy : Int
  data : NodeData
deriving DecidableEq, Repr

/-- A graph edge. -/
structure EdgeR where
  id : String
  source : String
  target : String
  type : String
deriving DecidableEq, Repr

/-- The node-data construction of `dcdu_to_reactflow`: label, id and output
    variable always; a single input variable as a scalar `Vin`, several as
    one bracketed comma-joined string; `p1`/`p2` first elements, bounds and
    subtype only when non-empty. -/
def mkNodeData (b : Bloco) : NodeData :=
  { label := titleStr b.tipo,
    id := nodeIdOf b,
    Vout := b.vsai,
    Vin := match b.vent with
           | [] => none
           | [v] => some v
           | vs => some ("[" ++ joinSep "," vs ++ "]"),
    P1 := b.p1.head?,
    P2 := b.p2.head?,
    Vmin := if b.vmin = "" then none else some b.vmin,
    Vmax := if b.vmax = "" then none else some b.vmax,
    stip := if b.stip = "" then none else some b.stip }

/-- One node of the projected graph. -/
def mkNode (b : Bloco) : NodeR :=
  { id := nodeIdOf b, type := nodeTypeOf b, posx := 0, posy := 0, data := mkNodeData b }

/-- The edge-id suffix: `"vin"` for the first input, `"vin{k}"` after. -/
def edgeSuffix (idx : Nat) : String :=
  if idx > 1 then "vin" ++ natToStr idx else "vin"

/-- `edge_id = f"reactflow__edge-{src}vout-{tgt}{suffix}"`. -/
def edgeIdOf (src tgt : String) (idx : Nat) : String :=
  "reactflow__edge-" ++ src ++ "vout-" ++ tgt ++ edgeSuffix idx

/-- The edges contributed by one block: one per input variable whose
    producer is found in `var_to_node`; unresolved references are dropped. -/
def mkEdgesFor (bs : List Bloco) (b : Bloco) : List EdgeR :=
  (List.enumFrom 1 b.vent).filterMap fun p =>
    match varToNode bs p.2 with
    | none => none
    | some src =>
      some { id := edgeIdOf src (nodeIdOf b) p.1, source := src,
             target := nodeIdOf b, type := "default" }

/-- The projected graph. The source dict also carries constant scaffolding
    (`drawingData`, `groupData`, `parameters`) with no derived content,
    omitted here. -/
structure ReactFlowGraph where
  nodes : List NodeR
  edges : List EdgeR
deriving DecidableEq, Repr

/-- `dcdu_to_reactflow`. -/
def dcdu_to_reactflow (d : DCDU) : ReactFlowGraph :=
  let bs := allBlocks d
  { nodes := bs.map mkNode, edges := bs.flatMap (mkEdgesFor bs) }

/- ------------------------------------------------------------------ -/
/- Text generator: `generate_cdu_from_blocks` (cdu_generator.py).      -/
/- ------------------------------------------------------------------ -/

/-- A reduced block descriptor, the element type of the generator's input
    list. Parameter values are only ever interpolated into the output, so
    they are modelled by their rendered decimal strings. -/
structure BlockDescriptor where
  type : String
  label : String
  vin : List String
  vout : String
  params : List (String × String)
deriving DecidableEq, Repr

/-- Python `params.get(key, default)`. -/
def paramGetD (ps : List (String × String)) (k dflt : String) : String :=
  match ps.lookup k with
  | some v => v
  | none => dflt

/-- The fixed first output line of the generator. -/
def headerLine : String := "* CDU Generated from Control Diagram"

/-- One iteration of the generator loop: render one descriptor to its line.
    In the `OUTPUT` branch the source indexes `vin[0]` where `vin` is the
    comma-joined input string, which raises `IndexError` when that string
    is empty (modelled as `.error`). -/
def renderBlock (b : BlockDescriptor) : Except String String :=
  let bt := upperStr b.type
  let vinStr := joinSep "," b.vin
  if bt = "GAIN" then
    .ok (b.label ++ " GAIN " ++ vinStr ++ " " ++ b.vout ++ " K=" ++ paramGetD b.params "K" "1.0")
  else if bt = "INTEGRATOR" then
    .ok (b.label ++ " INT " ++ vinStr ++ " " ++ b.vout ++ " T=" ++ paramGetD b.params "T" "1.0")
  else if bt = "SUM" then
    .ok (b.label ++ " SUM " ++ vinStr ++ " " ++ b.vout)
  else if bt = "INPUT" then
    .ok (b.label ++ " INP " ++ b.vout)
  else if bt = "OUTPUT" then
    match vinStr.data with
    | [] => .error "IndexError: string index out of range"
    | c :: _ => .ok (b.label ++ " OUT " ++ String.mk [c])
  else
    .ok ("* Unknown block type " ++ bt)

/-- The generator loop over all descriptors; a raised exception propagates. -/
def renderBlocks : List BlockDescriptor → Except String (List String)
  | [] => .ok []
  | b :: bs =>
    match renderBlock b with
    | .error e => .error e
    | .ok l =>
      match renderBlocks bs with
      | .error e => .error e
      | .ok rest => .ok (l :: rest)

/-- `generate_cdu_from_blocks`: the fixed header line followed by one line
    per descriptor, joined with newlines. -/
def generate_cdu_from_blocks (blocks : List BlockDescriptor) : Except String String :=
  match renderBlocks blocks with
  | .error e => .error e
  | .ok ls => .ok (joinSep "\n" (headerLine :: ls))

/- ------------------------------------------------------------------ -/
/- Helper lemmas.                                                      -/
/- ------------------------------------------------------------------ -/

theorem string_eq_empty_of_data_nil {s : String} (h : s.data = []) : s = "" := by
  cases s with
  | mk d => cases h; rfl

theorem renderBlock_ok_of (b : BlockDescriptor)
    (hb : upperStr b.type = "OUTPUT" → joinSep "," b.vin ≠ "") :
    ∃ l, renderBlock b = .ok l := by
  simp only [renderBlock]
  split
  · exact ⟨_, rfl⟩
  · split
    · exact ⟨_, rfl⟩
    · split
      · exact ⟨_, rfl⟩
      · split
        · exact ⟨_, rfl⟩
        · split
          · rename_i hout
            split
            · rename_i hnil
              exact absurd (string_eq_empty_of_data_nil hnil) (hb hout)
            · exact ⟨_, rfl⟩
          · exact ⟨_, rfl⟩

theorem renderBlocks_ok_of (blocks : List BlockDescriptor)
    (h : ∀ b ∈ blocks, upperStr b.type = "OUTPUT" → joinSep "," b.vin ≠ "") :
    ∃ ls, renderBlocks blocks = .ok ls := by
  induction blocks with
  | nil => exact ⟨[], rfl⟩
  | cons b bs ih =>
    obtain ⟨l, hl⟩ := renderBlock_ok_of b (h b (by simp))
    obtain ⟨ls, hls⟩ := ih (fun x hx => h x (by simp [hx]))
    exact ⟨l :: ls, by simp [renderBlocks, hl, hls]⟩

/- ------------------------------------------------------------------ -/
/- Claim theorems: text generator.                                     -/
/- ------------------------------------------------------------------ -/

/-- C4 (counterexample): the export operation does not always return a
    result — a descriptor of type `OUTPUT` with an empty input list makes
    the generator index the empty joined input string, which raises
    `IndexError` instead of producing text. -/
theorem C4_counterexample :
    generate_cdu_from_blocks
      [{ type := "OUTPUT", label := "O1", vin := [], vout := "", params := [] }] =
      Except.error "IndexError: string index out of range" := by
  rfl

/-- C4 (amended): for every input list in which each `OUTPUT`-typed
    descriptor has a non-empty comma-joined input string, the export
    operation returns a plain-text result; and a descriptor whose type is
    outside the recognized vocabulary (GAIN, INTEGRATOR, SUM, INPUT,
    OUTPUT) renders to a comment line beginning with `*` instead of
    failing the generation. -/
theorem C4_generator_total (blocks : List BlockDescriptor)
    (h : ∀ b ∈ blocks, upperStr b.type = "OUTPUT" → joinSep "," b.vin ≠ "") :
    (∃ s, generate_cdu_from_blocks blocks = .ok s) ∧
    (∀ b ∈ blocks, upperStr b.type ≠ "GAIN" → upperStr b.type ≠ "INTEGRATOR" →
      upperStr b.type ≠ "SUM" → upperStr b.type ≠ "INPUT" → upperStr b.type ≠ "OUTPUT" →
      renderBlock b = .ok ("* Unknown block type " ++ upperStr b.type)) := by
  constructor
  · obtain ⟨ls, hls⟩ := renderBlocks_ok_of blocks h
    exact ⟨joinSep "\n" (headerLine :: ls), by simp [generate_cdu_from_blocks, hls]⟩
  · intro b _ h1 h2 h3 h4 h5
    simp only [renderBlock]
    rw [if_neg h1, if_neg h2, if_neg h3, if_neg h4, if_neg h5]

/-- C4 witness: the amended theorem applied to a list holding one
    unrecognized descriptor. -/
theorem C4_generator_total_witness :
    (∃ s, generate_cdu_from_blocks
        [{ type := "weird", label := "W", vin := [], vout := "z", params := [] }] = .ok s) ∧
    (∀ b ∈ ([{ type := "weird", label := "W", vin := [], vout := "z", params := [] }] :
        List BlockDescriptor),
      upperStr b.type ≠ "GAIN" → upperStr b.type ≠ "INTEGRATOR" →
      upperStr b.type ≠ "SUM" → upperStr b.type ≠ "INPUT" → upperStr b.type ≠ "OUTPUT" →
      renderBlock b = .ok ("* Unknown block type " ++ upperStr b.type)) :=
  C4_generator_total _ (by decide)

/-- C5 (code evaluated at the failing input): for an `OUTPUT` descriptor
    with first input variable `VSTAB`, the generated line is `O1 OUT V` —
    the source interpolates `vin[0]` after rebinding `vin` to the
    comma-joined input string, so only the first character of the first
    input variable is emitted, not the whole variable as the spec states. -/
theorem C5_output_truncates_to_first_char :
    generate_cdu_from_blocks
      [{ type := "OUTPUT", label := "O1", vin := ["VSTAB"], vout := "", params := [] }] =
      Except.ok ("* CDU Generated from Control Diagram\nO1 OUT V") ∧
    ("O1 OUT V" : String) ≠ "O1 OUT VSTAB" := by
  exact ⟨rfl, by decide⟩

/-- C6 (counterexample): generating from the empty block list does not
    return the empty string. -/
theorem C6_counterexample : generate_cdu_from_blocks [] ≠ Except.ok "" := by
  intro h
  exact absurd (Except.ok.inj h) (by decide)

/-- C6 (amended): generating from the empty block list returns exactly the
    fixed header comment line — one line, not the empty string. -/
theorem C6_empty_input :
    generate_cdu_from_blocks [] = Except.ok headerLine ∧
    headerLine = "* CDU Generated from Control Diagram" :=
  ⟨rfl, rfl⟩

/-- C10: whenever the generator returns a result, that result starts with
    the fixed comment line `* CDU Generated from Control Diagram`, which is
    its entire first line: the result is either exactly the header or the
    header followed by a newline and the per-block lines. -/
theorem C10_header_first (blocks : List BlockDescriptor) (s : String)
    (h : generate_cdu_from_blocks blocks = .ok s) :
    s = headerLine ∨ ∃ t, s = headerLine ++ "\n" ++ t := by
  unfold generate_cdu_from_blocks at h
  cases hr : renderBlocks blocks with
  | error e => rw [hr] at h; exact absurd h (by simp)
  | ok ls =>
    rw [hr] at h
    have hs : s = joinSep "\n" (headerLine :: ls) := (Except.ok.inj h).symm
    cases ls with
    | nil => exact Or.inl hs
    | cons y ys => exact Or.inr ⟨joinSep "\n" (y :: ys), hs⟩

/-- C10 witness: the theorem applied to the empty block list. -/
theorem C10_header_first_witness :
    headerLine = headerLine ∨ ∃ t, headerLine = headerLine ++ "\n" ++ t :=
  C10_header_first [] headerLine rfl

/- ------------------------------------------------------------------ -/
/- Claim theorems: record decoder and block assembler.                 -/
/- ------------------------------------------------------------------ -/

theorem ljustL_length_ge (l : Line) (w : Nat) : w ≤ (ljustL l w).length := by
  simp only [ljustL, List.length_append, List.length_replicate]
  omega

/-- C8: decoding a line as a block record never fails: the line is
    right-padded to at least 71 columns, every character index used is in
    range (the checked decoder always returns the total one's record), and
    on a line with no data every string-valued field is the empty string
    (the single-character flag columns pad to a space). -/
theorem C8_decode_never_fails (line : Line) :
    parse_bloco_line? line = some (parse_bloco_line line) ∧
    71 ≤ (ljustL (rstripNl line) 71).length ∧
    parse_bloco_line (ln "") =
      { nb := [], i := ' ', tipo := [], o := ' ', stip := [], s := [' '],
        vent := [[]], vsai := [], p1 := [[]], p2 := [[]], p3 := [[]], p4 := [[]],
        vmin := [], vmax := [] } := by
  refine ⟨?_, ljustL_length_ge _ _, by decide⟩
  have h71 : 71 ≤ (ljustL (rstripNl line) 71).length := ljustL_length_ge _ _
  have h4 : 4 < (ljustL (rstripNl line) 71).length := by omega
  have h11 : 11 < (ljustL (rstripNl line) 71).length := by omega
  have h18 : 18 < (ljustL (rstripNl line) 71).length := by omega
  simp only [parse_bloco_line?, parse_bloco_line, List.get?_eq_getElem?,
    List.getElem?_eq_getElem h4, List.getElem?_eq_getElem h11,
    List.getElem?_eq_getElem h18, List.getD_eq_getElem?_getD, Option.getD_some]

/-- C7 (counterexample): a standalone `999999` line inside an open
    `DCDU ... FIMCDU` section does not reset the accumulation — the
    `DEFPAR` line gathered before the sentinel appears in the returned
    section, together with the sentinel itself. -/
theorem C7_counterexample :
    extract_dcdu_blocks
      [ln "      1 PSSBR   DCDU", ln "DEFPAR KX  1.0", ln "999999", ln "FIMCDU"] =
      [[ln "      1 PSSBR   DCDU", ln "DEFPAR KX  1.0", ln "999999", ln "FIMCDU"]] := by
  rfl

/-- C7 (amended): the extractor gives a standalone `999999` line no special
    treatment: while a section is in progress it is appended to the
    in-progress accumulation like any ordinary content line (and the state
    stays in-section), so lines gathered before the sentinel remain in the
    section and appear in the output when `FIMCDU` later closes it. -/
theorem C7_sentinel_is_content (st : ExtractState) (h : st.inBlock = true) :
    extractStep st (ln "999999") = { st with current := st.current ++ [ln "999999"] } := by
  unfold extractStep
  rw [if_neg (by decide)]
  rw [if_neg (by rw [h]; decide)]
  rw [if_pos h, if_neg (by decide)]

/-- C7 witness: the amended theorem applied to a concrete in-section state. -/
theorem C7_sentinel_is_content_witness :
    extractStep { all := [], current := [ln "x"], inBlock := true } (ln "999999") =
      { all := [], current := [ln "x", ln "999999"], inBlock := true } :=
  C7_sentinel_is_content { all := [], current := [ln "x"], inBlock := true } rfl

theorem foldl_add_continuation_s_length (ls : List Line) (b : BlocoRec) :
    (List.foldl add_continuation_line b ls).s.length = b.s.length + ls.length := by
  induction ls generalizing b with
  | nil => simp
  | cons x xs ih =>
    rw [List.foldl_cons, ih]
    have hs : (add_continuation_line b x).s =
        b.s ++ [(ljustL (rstripNl x) 71).getD 18 ' '] := rfl
    rw [hs]
    simp only [List.length_append, List.length_cons, List.length_nil]
    omega

theorem consumeContinuations_eq_takeDrop (b : BlocoRec) (rest : List Line) :
    consumeContinuations b rest =
      (List.foldl add_continuation_line b (rest.takeWhile isContinuationLine),
       rest.dropWhile isContinuationLine) := by
  induction rest generalizing b with
  | nil => simp [consumeContinuations]
  | cons x xs ih =>
    rw [consumeContinuations]
    by_cases hx : isContinuationLine x
    · simp [hx, List.takeWhile_cons, List.dropWhile_cons, ih]
    · simp [hx, List.takeWhile_cons, List.dropWhile_cons]

theorem asm_fold_continuations (d : DcduData) (b : BlocoRec) (rest : List Line) :
    List.foldl asmStep { d := d, pending := some b } rest =
      List.foldl asmStep
        { d := d,
          pending := some (List.foldl add_continuation_line b
            (rest.takeWhile isContinuationLine)) }
        (rest.dropWhile isContinuationLine) := by
  induction rest generalizing b with
  | nil => simp
  | cons x xs ih =>
    by_cases hx : isContinuationLine x
    · rw [List.foldl_cons]
      have hstep : asmStep { d := d, pending := some b } x =
          { d := d, pending := some (add_continuation_line b x) } := by
        simp [asmStep, hx]
      rw [hstep, ih]
      simp [List.takeWhile_cons, List.dropWhile_cons, hx]
    · simp [List.takeWhile_cons, List.dropWhile_cons, hx]

/-- C1 (counterexample): an `ACUM` block followed by three lines whose own
    type column (5:11) is non-blank consumes none of them: the parse yields
    four separate interior blocks, the `ACUM` one spanning a single
    physical line — not one block that consumed exactly 3 continuations. -/
theorem C1_counterexample :
    (parse_dcdu_block? [ln "     1 TEST DCDU", ln "   1 ACUM  O      IN1    OUT1",
        ln "   2 GANHO O      AA1    BB1", ln "   3 GANHO O      AA2    BB2",
        ln "   4 GANHO O      AA3    BB3", ln "FIMCDU"]).map
      (fun d => (d.blocos.length, d.blocos.map (fun b => b.s.length))) =
      some (4, [1, 1, 1, 1]) := by
  rfl

/-- C1 (amended): `ACUM`, `INTRES` and `COMPAR` are multi-line types, but
    there is no fixed continuation count: like every multi-line type, a
    block consumes exactly the maximal run of immediately following lines
    whose type column (5:11) is blank and which are not comments — one
    physical line is recorded per consumed continuation — and the line
    loop resumes at the first line failing that test. -/
theorem C1_continuation_rule (b : BlocoRec) (rest : List Line) :
    (ln "ACUM" ∈ multi_line_types ∧ ln "INTRES" ∈ multi_line_types ∧
      ln "COMPAR" ∈ multi_line_types) ∧
    consumeContinuations b rest =
      (List.foldl add_continuation_line b (rest.takeWhile isContinuationLine),
       rest.dropWhile isContinuationLine) ∧
    (consumeContinuations b rest).1.s.length =
      b.s.length + (rest.takeWhile isContinuationLine).length ∧
    (∀ d : DcduData, List.foldl asmStep { d := d, pending := some b } rest =
      List.foldl asmStep
        { d := d,
          pending := some (List.foldl add_continuation_line b
            (rest.takeWhile isContinuationLine)) }
        (rest.dropWhile isContinuationLine)) := by
  refine ⟨by decide, consumeContinuations_eq_takeDrop b rest, ?_, fun d => asm_fold_continuations d b rest⟩
  rw [consumeContinuations_eq_takeDrop b rest]
  exact foldl_add_continuation_s_length _ _

/- ------------------------------------------------------------------ -/
/- Claim theorems: graph projector.                                    -/
/- ------------------------------------------------------------------ -/

theorem decRepr_of_lt {n : Nat} (h : n < 10) : decRepr n = [Nat.digitChar n] := by
  rw [decRepr]
  simp [h]

theorem decRepr_of_ge {n : Nat} (h : 10 ≤ n) :
    decRepr n = decRepr (n / 10) ++ [Nat.digitChar (n % 10)] := by
  rw [decRepr]
  simp [Nat.not_lt.2 h]

theorem decRepr_ne_nil (n : Nat) : decRepr n ≠ [] := by
  by_cases h : n < 10
  · rw [decRepr_of_lt h]; simp
  · rw [decRepr_of_ge (Nat.not_lt.1 h)]; simp

theorem digitChar_toNat_of_lt {k : Nat} (h : k < 10) : (Nat.digitChar k).toNat = 48 + k := by
  interval_cases k <;> rfl

theorem decVal_append_singleton (l : Line) (c : Char) :
    decVal (l ++ [c]) = decVal l * 10 + (c.toNat - 48) := by
  simp [decVal, List.foldl_append]

theorem decVal_replicate_zero_append (k : Nat) (l : Line) :
    decVal (List.replicate k '0' ++ l) = decVal l := by
  have hz : List.foldl (fun a c => a * 10 + (c.toNat - 48)) 0 (List.replicate k '0') = 0 := by
    induction k with
    | zero => rfl
    | succ m ih => rw [List.replicate_succ, List.foldl_cons]; simpa using ih
  simp [decVal, List.foldl_append, hz]

theorem decVal_decRepr (n : Nat) : decVal (decRepr n) = n := by
  induction n using Nat.strong_induction_on with
  | _ n ih =>
    by_cases h : n < 10
    · rw [decRepr_of_lt h]
      show decVal [Nat.digitChar n] = n
      simp [decVal, digitChar_toNat_of_lt h]
    · have h10 : 10 ≤ n := Nat.not_lt.1 h
      rw [decRepr_of_ge h10, decVal_append_singleton, ih (n / 10) (by omega)]
      rw [digitChar_toNat_of_lt (Nat.mod_lt _ (by omega))]
      omega

theorem decVal_format04_data (n : Nat) : decVal (format04 n).data = n := by
  have hd : (format04 n).data = List.replicate (4 - (decRepr n).length) '0' ++ decRepr n := rfl
  rw [hd, decVal_replicate_zero_append, decVal_decRepr]

theorem format04_injective {a b : Nat} (h : format04 a = format04 b) : a = b := by
  have := congrArg (fun s => decVal s.data) h
  simpa [decVal_format04_data] using this

theorem decRepr_length_le {n k : Nat} (hk : 1 ≤ k) (h : n < 10 ^ k) :
    (decRepr n).length ≤ k := by
  induction k generalizing n with
  | zero => omega
  | succ m ih =>
    by_cases h10 : n < 10
    · rw [decRepr_of_lt h10]; simp
    · have hge : 10 ≤ n := Nat.not_lt.1 h10
      rw [decRepr_of_ge hge]
      rcases Nat.eq_zero_or_pos m with hm | hm
      · subst hm; simp [pow_succ] at h; omega
      · have hdiv : n / 10 < 10 ^ m := by
          rw [Nat.div_lt_iff_lt_mul (by omega)]
          calc n < 10 ^ (m + 1) := h
          _ = 10 ^ m * 10 := by rw [pow_succ]
        have := ih hm hdiv
        simp only [List.length_append, List.length_cons, List.length_nil]
        omega

theorem format04_length_of_lt {n : Nat} (h : n < 10000) : (format04 n).length = 4 := by
  have hle : (decRepr n).length ≤ 4 := by
    refine decRepr_length_le (by norm_num) ?_
    norm_num
    exact h
  have hd : (format04 n).length =
      (List.replicate (4 - (decRepr n).length) '0' ++ decRepr n).length := rfl
  rw [hd]
  simp only [List.length_append, List.length_replicate]
  omega

/-- C3: if every block number is below 10000 and block numbers are pairwise
    distinct, then every emitted node id — the block number rendered
    zero-padded to 4 digits — is a string of exactly 4 characters, and node
    ids are pairwise distinct across all emitted nodes. -/
theorem C3_node_ids (d : DCDU)
    (h4 : ∀ b ∈ allBlocks d, b.nb < 10000)
    (huniq : (allBlocks d).Pairwise (fun a b => a.nb ≠ b.nb)) :
    (∀ nd ∈ (dcdu_to_reactflow d).nodes, nd.id.length = 4) ∧
    ((dcdu_to_reactflow d).nodes.map NodeR.id).Nodup := by
  constructor
  · intro nd hnd
    simp only [dcdu_to_reactflow, List.mem_map] at hnd
    obtain ⟨b, hb, rfl⟩ := hnd
    exact format04_length_of_lt (h4 b hb)
  · simp only [dcdu_to_reactflow, List.map_map]
    have hfun : (NodeR.id ∘ mkNode) = fun b : Bloco => format04 b.nb := rfl
    rw [hfun]
    exact List.Pairwise.map _ (fun a b hab heq => hab (format04_injective heq)) huniq

/-- Example blocks and diagrams for concrete instantiations. -/
def exBlocoA : Bloco :=
  { nb := 1, tipo := "SOMA", stip := "", vent := [], vsai := "X",
    p1 := [], p2 := [], p3 := [], p4 := [], vmin := "", vmax := "" }

def exBlocoB : Bloco :=
  { nb := 2, tipo := "GANHO", stip := "", vent := ["X"], vsai := "",
    p1 := [], p2 := [], p3 := [], p4 := [], vmin := "", vmax := "" }

def exBlocoBLower : Bloco :=
  { nb := 2, tipo := "GANHO", stip := "", vent := ["x"], vsai := "",
    p1 := [], p2 := [], p3 := [], p4 := [], vmin := "", vmax := "" }

def exBlocoC : Bloco :=
  { nb := 3, tipo := "SOMA", stip := "", vent := ["X", "Y"], vsai := "Z",
    p1 := [], p2 := [], p3 := [], p4 := [], vmin := "", vmax := "" }

def exDCDU : DCDU := { entrads := [], imports := [exBlocoA], blocos := [exBlocoB], exports := [] }

def exDCDUMiscase : DCDU :=
  { entrads := [], imports := [exBlocoA], blocos := [exBlocoBLower], exports := [] }

def exDCDUMulti : DCDU :=
  { entrads := [], imports := [exBlocoA], blocos := [exBlocoC], exports := [] }

/-- C3 witness: the theorem applied to a concrete two-block diagram. -/
theorem C3_node_ids_witness :
    (∀ nd ∈ (dcdu_to_reactflow exDCDU).nodes, nd.id.length = 4) ∧
    ((dcdu_to_reactflow exDCDU).nodes.map NodeR.id).Nodup :=
  C3_node_ids exDCDU (by decide) (by decide)

theorem varToNode_append_singleton (bs : List Bloco) (b : Bloco) (v : String) :
    varToNode (bs ++ [b]) v =
      if b.vsai = v ∧ b.vsai ≠ "" then some (nodeIdOf b) else varToNode bs v := by
  simp [varToNode, List.foldl_append]

theorem varToNode_mem {bs : List Bloco} {v s : String}
    (h : varToNode bs v = some s) :
    ∃ a ∈ bs, a.vsai = v ∧ a.vsai ≠ "" ∧ nodeIdOf a = s := by
  induction bs using List.reverseRecOn with
  | nil => cases h
  | append_singleton bs b ih =>
    rw [varToNode_append_singleton] at h
    by_cases hc : b.vsai = v ∧ b.vsai ≠ ""
    · rw [if_pos hc] at h
      exact ⟨b, by simp, hc.1, hc.2, Option.some.inj h⟩
    · rw [if_neg hc] at h
      obtain ⟨a, ha, h1, h2, h3⟩ := ih h
      exact ⟨a, by simp [ha], h1, h2, h3⟩

theorem varToNode_eq_of_unique {bs : List Bloco} {a : Bloco}
    (ha : a ∈ bs) (hne : a.vsai ≠ "")
    (hu : ∀ x ∈ bs, ∀ y ∈ bs, x.vsai = y.vsai → x.vsai ≠ "" → nodeIdOf x = nodeIdOf y) :
    varToNode bs a.vsai = some (nodeIdOf a) := by
  induction bs using List.reverseRecOn with
  | nil => cases ha
  | append_singleton bs b ih =>
    rw [varToNode_append_singleton]
    by_cases hc : b.vsai = a.vsai ∧ b.vsai ≠ ""
    · rw [if_pos hc]
      have hb : b ∈ bs ++ [b] := by simp
      have ha2 : a ∈ bs ++ [b] := ha
      rw [hu b hb a ha2 hc.1 hc.2]
    · rw [if_neg hc]
      rcases List.mem_append.1 ha with h1 | h1
      · exact ih h1 (fun x hx y hy => hu x (by simp [hx]) y (by simp [hy]))
      · have hab : a = b := List.mem_singleton.1 h1
        exact absurd ⟨by rw [← hab], by rw [← hab]; exact hne⟩ hc

/-- C2 (counterexample): variable matching in edge derivation is exact, not
    case-insensitive: with a producer of `X` and a consumer listing `x`
    (equal up to case), the projector emits no edge at all. -/
theorem C2_counterexample :
    (dcdu_to_reactflow exDCDUMiscase).edges = [] ∧ lowerStr "x" = lowerStr "X" := by
  exact ⟨rfl, rfl⟩

/-- C2 (amended): assuming each non-empty output variable determines the
    producing node id (one producer per variable), an edge from node A to
    node B exists if and only if block B lists an input variable exactly
    equal — case-sensitively — to the non-empty output variable produced
    by block A; an input-variable reference with no producer yields no
    edge and raises no error. -/
theorem C2_edge_iff (d : DCDU)
    (hu : ∀ x ∈ allBlocks d, ∀ y ∈ allBlocks d,
      x.vsai = y.vsai → x.vsai ≠ "" → nodeIdOf x = nodeIdOf y)
    (s t : String) :
    (∃ e ∈ (dcdu_to_reactflow d).edges, e.source = s ∧ e.target = t) ↔
    (∃ a ∈ allBlocks d, ∃ b ∈ allBlocks d,
      a.vsai ≠ "" ∧ a.vsai ∈ b.vent ∧ nodeIdOf a = s ∧ nodeIdOf b = t) := by
  constructor
  · rintro ⟨e, he, hs, ht⟩
    simp only [dcdu_to_reactflow, List.mem_flatMap] at he
    obtain ⟨b, hb, hbe⟩ := he
    simp only [mkEdgesFor, List.mem_filterMap] at hbe
    obtain ⟨p, hp, hpe⟩ := hbe
    cases hv : varToNode (allBlocks d) p.2 with
    | none => rw [hv] at hpe; cases hpe
    | some src =>
      rw [hv] at hpe
      have he2 := Option.some.inj hpe
      have hsrc : e.source = src := by rw [← he2]
      have htgt : e.target = nodeIdOf b := by rw [← he2]
      obtain ⟨a, ha, hav, hane, hanid⟩ := varToNode_mem hv
      refine ⟨a, ha, b, hb, hane, ?_, ?_, ?_⟩
      · rw [hav]
        have hmem : p.2 ∈ List.map Prod.snd (List.enumFrom 1 b.vent) :=
          List.mem_map_of_mem _ hp
        rwa [List.enumFrom_map_snd] at hmem
      · rw [hanid, ← hs, hsrc]
      · rw [← ht, htgt]
  · rintro ⟨a, ha, b, hb, hane, hmem, has, hbt⟩
    have hv : varToNode (allBlocks d) a.vsai = some (nodeIdOf a) :=
      varToNode_eq_of_unique ha hane hu
    have hm2 : a.vsai ∈ List.map Prod.snd (List.enumFrom 1 b.vent) := by
      rw [List.enumFrom_map_snd]; exact hmem
    obtain ⟨p, hp, hp2⟩ := List.mem_map.1 hm2
    refine ⟨EdgeR.mk (edgeIdOf (nodeIdOf a) (nodeIdOf b) p.1) (nodeIdOf a) (nodeIdOf b) "default", ?_, by rw [has], by rw [hbt]⟩
    simp only [dcdu_to_reactflow, List.mem_flatMap]
    refine ⟨b, hb, ?_⟩
    simp only [mkEdgesFor, List.mem_filterMap]
    refine ⟨p, hp, ?_⟩
    rw [hp2, hv]

/-- C2 witness: the amended theorem instantiated on a diagram where block 1
    produces `X` and block 2 consumes `X`, producing the edge. -/
theorem C2_edge_iff_witness :
    ∃ e ∈ (dcdu_to_reactflow exDCDU).edges,
      e.source = nodeIdOf exBlocoA ∧ e.target = nodeIdOf exBlocoB :=
  (C2_edge_iff exDCDU
    (by
      intro x hx y hy hxy hne
      fin_cases hx <;> fin_cases hy
      · rfl
      · exact absurd hxy (by decide)
      · exact absurd rfl hne
      · exact absurd rfl hne)
    (nodeIdOf exBlocoA) (nodeIdOf exBlocoB)).mpr
    ⟨exBlocoA, by decide, exBlocoB, by decide, by decide, by decide, rfl, rfl⟩

/-- C9: the node emitted for a block carries, when the block has exactly
    one input variable, that variable itself as the `Vin` datum; when it
    has two or more, a single string — the bracketed, comma-joined
    concatenation of all of them — not separate fields. -/
theorem C9_vin_packing (d : DCDU) (b : Bloco) (hb : b ∈ allBlocks d) :
    ∃ nd ∈ (dcdu_to_reactflow d).nodes,
      nd.id = nodeIdOf b ∧
      (∀ v, b.vent = [v] → nd.data.Vin = some v) ∧
      (2 ≤ b.vent.length → nd.data.Vin = some ("[" ++ joinSep "," b.vent ++ "]")) := by
  refine ⟨mkNode b, ?_, rfl, ?_, ?_⟩
  · simp only [dcdu_to_reactflow, List.mem_map]
    exact ⟨b, hb, rfl⟩
  · intro v hv
    show (mkNodeData b).Vin = some v
    simp [mkNodeData, hv]
  · intro h2
    show (mkNodeData b).Vin = some ("[" ++ joinSep "," b.vent ++ "]")
    match hvent : b.vent with
    | [] => simp [hvent] at h2
    | [v] => simp [hvent] at h2
    | v :: w :: vs => simp [mkNodeData, hvent]

/-- C9 witness: the theorem applied to a diagram with a two-input block;
    its node packs `["X", "Y"]` into the single string `"[X,Y]"`. -/
theorem C9_vin_packing_witness :
    ∃ nd ∈ (dcdu_to_reactflow exDCDUMulti).nodes,
      nd.id = nodeIdOf exBlocoC ∧
      (∀ v, exBlocoC.vent = [v] → nd.data.Vin = some v) ∧
      (2 ≤ exBlocoC.vent.length →
        nd.data.Vin = some ("[" ++ joinSep "," exBlocoC.vent ++ "]")) :=
  C9_vin_packing exDCDUMulti exBlocoC (by decide)
